import Mathlib

/-!
Verification of the valve-a2s query client (Go, package a2s).

Shallow embedding conventions:
- Byte buffers are lists of natural numbers (each byte a Nat below 256 on
  real wire data; the definitions are total over Nat and compute the same
  arithmetic the Go code computes on bytes).
- The Go code reads buffers through an integer offset that only moves
  forward; here the cursor is represented by the remaining suffix of the
  buffer, so an offset check such as offset + k up to len(data) becomes a
  length check on the suffix.  This follows the design note of the project
  that the reader is naturally modelled as a cursor.
- The signed 32-bit challenge field of the Go client is an Int produced by
  toInt32, matching the int32 conversion of a little-endian uint32.
- Fallible operations return Except A2sErr.  The GoldSource info decoder
  additionally returns Option, where none models the Go runtime abort
  caused by an out-of-range slice index (the decoder lacks bounds checks).
- The network is modelled as the list of datagrams successive reads would
  return; an empty list models a read that times out.
-/

namespace A2s

/-- Wire constants of the protocol, from the constant block of the client. -/
def Header : Nat := 0xFFFFFFFF

/-- Split-packet header constant 0xFFFFFFFE. -/
def SPLIT_FLAG : Nat := 0xFFFFFFFE

/-- Request type byte of the INFO query. -/
def A2S_INFO : Nat := 0x54

/-- Request type byte of the PLAYER query. -/
def A2S_PLAYER : Nat := 0x55

/-- Request type byte of the RULES query. -/
def A2S_RULES : Nat := 0x56

/-- Response type byte of the challenge response. -/
def S2C_CHALLENGE : Nat := 0x41

/-- Response type byte of the Source-format INFO response. -/
def S2A_INFO_SRC : Nat := 0x49

/-- Response type byte of the GoldSource-format INFO response. -/
def S2A_INFO_GOLD : Nat := 0x6D

/-- Response type byte of the PLAYER response. -/
def S2A_PLAYER : Nat := 0x44

/-- Response type byte of the RULES response. -/
def S2A_RULES : Nat := 0x45

/-- The error taxonomy of errors.go, plus the two ad hoc errors the client
builds with errors.New and fmt.Errorf: the challenge-not-received error of
GetPlayers and GetRules, and the unknown-header error of processResponse. -/
inductive A2sErr where
  | ChallengeRequired
  | Timeout
  | InvalidResponse
  | NotConnected
  | TooManyRetries
  | UnsupportedFeature
  | ShortResponse
  | ProtocolMismatch (expected actual : Nat)
  | UnknownHeader (header : Nat)
  | ChallengeNotReceived
deriving DecidableEq

/-- The mutable state of the Go Client that the protocol logic touches: the
cached signed 32-bit challenge.  The socket, timeout and connected flag are
modelled as parameters of the operations that use them. -/
structure ClientState where
  challenge : Int
deriving DecidableEq

/-- NewClient initialises the challenge to the sentinel minus one. -/
def newClient : ClientState := { challenge := -1 }

/-- Little-endian unsigned 16-bit read of the first two bytes of a suffix,
as binary.LittleEndian.Uint16 does on data at the current offset. -/
def readU16 (l : List Nat) : Nat :=
  l.getD 0 0 + 256 * l.getD 1 0

/-- Little-endian unsigned 32-bit read of the first four bytes of a suffix. -/
def readU32 (l : List Nat) : Nat :=
  l.getD 0 0 + 256 * l.getD 1 0 + 65536 * l.getD 2 0 + 16777216 * l.getD 3 0

/-- Little-endian unsigned 64-bit read of the first eight bytes of a suffix. -/
def readU64 (l : List Nat) : Nat :=
  l.getD 0 0 + 256 * l.getD 1 0 + 65536 * l.getD 2 0 + 16777216 * l.getD 3 0
    + 4294967296 * l.getD 4 0 + 1099511627776 * l.getD 5 0
    + 281474976710656 * l.getD 6 0 + 72057594037927936 * l.getD 7 0

/-- Reinterpretation of an unsigned 32-bit value as a signed int32, as the
Go conversion int32(u) does. -/
def toInt32 (n : Nat) : Int :=
  if n < 2147483648 then (n : Int) else (n : Int) - 4294967296

/-- Two-complement unsigned 32-bit image of a signed value, as the Go
conversion uint32(i) does on an int32. -/
def int32ToU32 (i : Int) : Nat :=
  (i % 4294967296).toNat

/-- Little-endian four-byte encoding of an unsigned 32-bit value, as
binary.LittleEndian.PutUint32 writes it. -/
def u32Bytes (n : Nat) : List Nat :=
  [n % 256, n / 256 % 256, n / 65536 % 256, n / 16777216 % 256]

/-- The readString helper: scan the remaining bytes up to the first zero
byte, return the scanned bytes, and resume after the terminator when one
was found.  At the end of the buffer it returns empty text and does not
advance, exactly as the Go function leaves the offset in place. -/
def readString (rem : List Nat) : List Nat × List Nat :=
  (rem.takeWhile (fun b => b != 0),
   rem.drop ((rem.takeWhile (fun b => b != 0)).length + 1))

/-- The processSinglePacket method: the first remaining byte is the
response type; a challenge-typed response of at least five bytes caches the
challenge and signals ChallengeRequired; a type mismatch is a protocol
error; otherwise the payload after the type byte is returned. -/
def processSinglePacket (st : ClientState) (data : List Nat) (expect : Nat) :
    ClientState × Except A2sErr (List Nat) :=
  match data with
  | [] => (st, .error .ShortResponse)
  | responseType :: rest =>
    if responseType = S2C_CHALLENGE then
      if rest.length < 4 then (st, .error .ShortResponse)
      else ({ challenge := toInt32 (readU32 rest) }, .error .ChallengeRequired)
    else if responseType = expect then (st, .ok rest)
    else (st, .error (.ProtocolMismatch expect responseType))

/-- The payload start offset of a split packet: six bytes of split header,
extended by the optional two-byte field when more than eight bytes remain. -/
def splitPayloadStart (n : Nat) : Nat :=
  if 8 < n then 6 + 2 else 6

/-- The processSplitPacket method: at least nine remaining bytes are
required; the payload starts at offset six, extended to eight when more
than eight bytes remain; a start at or past the end is an invalid
response; otherwise single-packet processing runs on the suffix. -/
def processSplitPacket (st : ClientState) (data : List Nat) (expect : Nat) :
    ClientState × Except A2sErr (List Nat) :=
  if data.length < 9 then (st, .error .ShortResponse)
  else if data.length ≤ splitPayloadStart data.length then (st, .error .InvalidResponse)
  else processSinglePacket st (data.drop (splitPayloadStart data.length)) expect

/-- The processResponse method: dispatch on the little-endian four-byte
header, to single-packet processing for 0xFFFFFFFF, to split-packet
processing for 0xFFFFFFFE, and to an unknown-header error otherwise. -/
def processResponse (st : ClientState) (data : List Nat) (expect : Nat) :
    ClientState × Except A2sErr (List Nat) :=
  if data.length < 4 then (st, .error .ShortResponse)
  else
    let header := readU32 data
    if header = Header then processSinglePacket st (data.drop 4) expect
    else if header = SPLIT_FLAG then processSplitPacket st (data.drop 4) expect
    else (st, .error (.UnknownHeader header))

/-- The buildPacket method: four header bytes, the type byte, the
little-endian challenge before the payload for PLAYER and RULES requests,
the payload verbatim, and the challenge after the payload for INFO
requests when a challenge is known. -/
def buildPacket (st : ClientState) (packetType : Nat) (payload : List Nat) : List Nat :=
  let challengeAtBeginning := packetType = A2S_PLAYER ∨ packetType = A2S_RULES
  let challengeAtEnd := packetType = A2S_INFO ∧ st.challenge ≠ -1
  u32Bytes Header ++ [packetType]
    ++ (if challengeAtBeginning then u32Bytes (int32ToU32 st.challenge) else [])
    ++ payload
    ++ (if challengeAtEnd then u32Bytes (int32ToU32 st.challenge) else [])

/-- Result of a modelled send and receive cycle: the client state after the
cycle, the packets written to the socket, the datagrams not yet consumed
from the modelled inbound stream, and the outcome. -/
structure NetResult where
  state : ClientState
  sent : List (List Nat)
  remaining : List (List Nat)
  result : Except A2sErr (List Nat)

/-- Recogniser for the challenge-required outcome, as the errors.Is test of
the Go code against ErrChallengeRequired. -/
def isChallengeRequired : Except A2sErr (List Nat) → Bool
  | .error .ChallengeRequired => true
  | _ => false

/-- The retry loop of the sendRequest method: each attempt builds a packet
from the current state, writes it, reads one datagram (an exhausted stream
models a read deadline, returning Timeout) and processes it; an attempt
that signals ChallengeRequired is retried with the attempt budget reduced,
any other outcome is returned at once, and an exhausted budget yields
TooManyRetries. -/
def sendRequestLoop (packetType : Nat) (payload : List Nat) (expect : Nat) :
    ClientState → List (List Nat) → Nat → NetResult
  | st, resps, 0 => ⟨st, [], resps, .error .TooManyRetries⟩
  | st, resps, fuel + 1 =>
    let pkt := buildPacket st packetType payload
    match resps with
    | [] => ⟨st, [pkt], [], .error .Timeout⟩
    | d :: rest =>
      let pr := processResponse st d expect
      if isChallengeRequired pr.2 then
        let res := sendRequestLoop packetType payload expect pr.1 rest fuel
        { res with sent := pkt :: res.sent }
      else ⟨pr.1, [pkt], rest, pr.2⟩

/-- The sendRequest method: the retry loop with a budget of three attempts. -/
def sendRequest (st : ClientState) (resps : List (List Nat))
    (packetType : Nat) (payload : List Nat) (expect : Nat) : NetResult :=
  sendRequestLoop packetType payload expect st resps 3

/-- The per-player record of the data model.  Duration is a 32-bit float in
Go; the raw little-endian bit pattern is kept here.  Deaths and Money exist
in the Go record but are never written by the wire parser. -/
structure PlayerInfo where
  Index : Nat
  Name : List Nat
  Score : Int
  DurationBits : Nat
  Deaths : Int
  Money : Int
deriving DecidableEq

/-- A server rule: a name and value pair of byte strings. -/
structure Rule where
  Name : List Nat
  Value : List Nat
deriving DecidableEq

/-- The normalized server info record.  The nested SourceTV struct of the
Go type is flattened into its two fields; the Keywords field of the Go
type is omitted because the parser never writes it. -/
structure ServerInfo where
  Protocol : Nat
  Name : List Nat
  Map : List Nat
  Folder : List Nat
  Game : List Nat
  AppID : Nat
  Players : Nat
  MaxPlayers : Nat
  Bots : Nat
  ServerType : Nat
  Environment : Nat
  Visibility : Nat
  VAC : Nat
  Version : List Nat
  GamePort : Nat
  SteamID : Nat
  SourceTVPort : Nat
  SourceTVName : List Nat
  GameID : Nat
  EDF : Nat
deriving DecidableEq

/-- The zero value of the record, as the Go literal new ServerInfo. -/
def ServerInfo.zero : ServerInfo :=
  { Protocol := 0, Name := [], Map := [], Folder := [], Game := [], AppID := 0
  , Players := 0, MaxPlayers := 0, Bots := 0, ServerType := 0, Environment := 0
  , Visibility := 0, VAC := 0, Version := [], GamePort := 0, SteamID := 0
  , SourceTVPort := 0, SourceTVName := [], GameID := 0, EDF := 0 }

/-- Extra-data step of parseSourceInfo for bit 0x80: read the two-byte game
port when the bit is set and two bytes remain. -/
def edfGamePort (acc : ServerInfo × List Nat) : ServerInfo × List Nat :=
  let (info, rem) := acc
  if info.EDF &&& 0x80 ≠ 0 ∧ 2 ≤ rem.length then
    ({ info with GamePort := readU16 rem }, rem.drop 2)
  else acc

/-- Extra-data step for bit 0x10: read the eight-byte server identifier. -/
def edfSteamID (acc : ServerInfo × List Nat) : ServerInfo × List Nat :=
  let (info, rem) := acc
  if info.EDF &&& 0x10 ≠ 0 ∧ 8 ≤ rem.length then
    ({ info with SteamID := readU64 rem }, rem.drop 8)
  else acc

/-- Extra-data step for bit 0x40: read the SourceTV port and name. -/
def edfSourceTV (acc : ServerInfo × List Nat) : ServerInfo × List Nat :=
  let (info, rem) := acc
  if info.EDF &&& 0x40 ≠ 0 ∧ 2 ≤ rem.length then
    let prt := readU16 rem
    let nmRem := readString (rem.drop 2)
    ({ info with SourceTVPort := prt, SourceTVName := nmRem.1 }, nmRem.2)
  else acc

/-- Extra-data step for bit 0x20: the keyword string is read for cursor
advancement and discarded, as the Go code drops the tags value. -/
def edfKeywords (acc : ServerInfo × List Nat) : ServerInfo × List Nat :=
  let (info, rem) := acc
  if info.EDF &&& 0x20 ≠ 0 then (info, (readString rem).2) else acc

/-- Extra-data step for bit 0x01: read the eight-byte game identifier; the
Go code does not advance the offset here. -/
def edfGameID (acc : ServerInfo × List Nat) : ServerInfo × List Nat :=
  let (info, rem) := acc
  if info.EDF &&& 0x01 ≠ 0 ∧ 8 ≤ rem.length then
    ({ info with GameID := readU64 rem }, rem)
  else acc

/-- The optional tail of parseSourceInfo: when a byte remains it is the
Extra Data Flags byte, and the five flag-gated reads run in order, each
with its own bit test and length check, none of them able to fail. -/
def parseEDF (info : ServerInfo) (rem : List Nat) : ServerInfo :=
  match rem with
  | [] => info
  | e :: rest =>
    (edfGameID (edfKeywords (edfSourceTV (edfSteamID
      (edfGamePort ({ info with EDF := e }, rest)))))).1

/-- The parseSourceInfo method: a twenty-byte minimum, the protocol byte,
four strings, a conditional two-byte application identifier, the checked
player and environment blocks, the version string, and the extra-data
tail. -/
def parseSourceInfo (data : List Nat) : Except A2sErr ServerInfo :=
  if data.length < 20 then .error .ShortResponse
  else
    let protocol := data.getD 0 0
    let nm := readString (data.drop 1)
    let mp := readString nm.2
    let fo := readString mp.2
    let ga := readString fo.2
    let r4 := ga.2
    let appUpd := if 2 ≤ r4.length then (readU16 r4, r4.drop 2) else (0, r4)
    let r5 := appUpd.2
    if r5.length < 3 then .error .ShortResponse
    else
      let r6 := r5.drop 3
      if r6.length < 4 then .error .ShortResponse
      else
        let ver := readString (r6.drop 4)
        let info :=
          { ServerInfo.zero with
              Protocol := protocol, Name := nm.1, Map := mp.1, Folder := fo.1
            , Game := ga.1, AppID := appUpd.1
            , Players := r5.getD 0 0, MaxPlayers := r5.getD 1 0, Bots := r5.getD 2 0
            , ServerType := r6.getD 0 0, Environment := r6.getD 1 0
            , Visibility := r6.getD 2 0, VAC := r6.getD 3 0
            , Version := ver.1 }
        .ok (parseEDF info ver.2)

/-- The parseGoldSourceInfo method: an address string is discarded, four
strings are read, the two-byte player block is the only length check, then
protocol, server type, environment, visibility and the mod flag are read
without bounds checks, the mod branch skips its metadata, the VAC byte is
read without a bounds check, and a final byte, when present, is the bot
count.  The outer Option is none exactly when an unguarded read falls
outside the buffer, which in Go is a runtime abort rather than an error
value. -/
def parseGoldSourceInfo (data : List Nat) : Option (Except A2sErr ServerInfo) :=
  let ad := readString data
  let nm := readString ad.2
  let mp := readString nm.2
  let fo := readString mp.2
  let ga := readString fo.2
  let r5 := ga.2
  if r5.length < 2 then some (.error .ShortResponse)
  else
    match r5.get? 0, r5.get? 1, r5.get? 2, r5.get? 3, r5.get? 4, r5.get? 5, r5.get? 6 with
    | some players, some maxPlayers, some protocol, some serverType,
      some environment, some visibility, some modFlag =>
      let r6 := r5.drop 7
      let r7 :=
        if modFlag = 1 then
          let ra := readString r6
          let rb := readString ra.2
          rb.2.drop 11
        else r6
      match r7.get? 0 with
      | some vac =>
        let r8 := r7.drop 1
        let bots := r8.headD 0
        some (.ok
          { ServerInfo.zero with
              Protocol := protocol, Name := nm.1, Map := mp.1, Folder := fo.1
            , Game := ga.1, Players := players, MaxPlayers := maxPlayers
            , ServerType := serverType, Environment := environment
            , Visibility := visibility, VAC := vac, Bots := bots })
      | none => none
    | _, _, _, _, _, _, _ => none

/-- The loop of parsePlayersResponse: while entries remain to be read and
bytes remain, read the slot byte, the name string and the two checked
four-byte numbers; the final suffix is returned beside the entries. -/
def parsePlayersLoop (data : List Nat) : Nat → Except A2sErr (List PlayerInfo × List Nat)
  | 0 => .ok ([], data)
  | r + 1 =>
    match data with
    | [] => .ok ([], [])
    | index :: rest1 =>
      let nmRem := readString rest1
      if nmRem.2.length < 4 then .error .ShortResponse
      else
        let score := toInt32 (readU32 nmRem.2)
        let rest3 := nmRem.2.drop 4
        if rest3.length < 4 then .error .ShortResponse
        else
          let dur := readU32 rest3
          match parsePlayersLoop (rest3.drop 4) r with
          | .ok pr =>
            .ok ({ Index := index, Name := nmRem.1, Score := score
                 , DurationBits := dur, Deaths := 0, Money := 0 } :: pr.1, pr.2)
          | .error e => .error e

/-- The parsePlayersResponse method: the first byte is the player count and
the loop runs with that budget on the rest. -/
def parsePlayersResponse (data : List Nat) : Except A2sErr (List PlayerInfo) :=
  if data.length < 1 then .error .ShortResponse
  else
    match parsePlayersLoop (data.drop 1) (data.getD 0 0) with
    | .ok pr => .ok pr.1
    | .error e => .error e

/-- The loop of parseRulesResponse: while entries remain to be read and
bytes remain, read a name string and a value string; no error is possible. -/
def parseRulesLoop (data : List Nat) : Nat → List Rule × List Nat
  | 0 => ([], data)
  | r + 1 =>
    match data with
    | [] => ([], [])
    | b :: rest0 =>
      let nmRem := readString (b :: rest0)
      let vlRem := readString nmRem.2
      let pr := parseRulesLoop vlRem.2 r
      ({ Name := nmRem.1, Value := vlRem.1 } :: pr.1, pr.2)

/-- The parseRulesResponse method: the first two bytes are the little-endian
rule count and the loop runs with that budget on the rest. -/
def parseRulesResponse (data : List Nat) : Except A2sErr (List Rule) :=
  if data.length < 2 then .error .ShortResponse
  else .ok (parseRulesLoop (data.drop 2) (readU16 data)).1

/-- Continuation of GetPlayers after the challenge probe: fail when no
challenge was ever obtained, otherwise send the real request with the
challenge bytes and parse the player list. -/
def getPlayersAfterProbe (probe : NetResult) : ClientState × Except A2sErr (List PlayerInfo) :=
  if probe.state.challenge = -1 then (probe.state, .error .ChallengeNotReceived)
  else
    let req := sendRequest probe.state probe.remaining A2S_PLAYER
      (u32Bytes (int32ToU32 probe.state.challenge)) S2A_PLAYER
    match req.result with
    | .error e => (req.state, .error e)
    | .ok resp => (req.state, parsePlayersResponse resp)

/-- The GetPlayers method: the not-connected guard, the challenge probe
with payload four 0xFF bytes expecting the challenge type, the treatment
of a ChallengeRequired probe outcome as probe success, and the real
request. -/
def GetPlayers (connected : Bool) (st : ClientState) (resps : List (List Nat)) :
    ClientState × Except A2sErr (List PlayerInfo) :=
  if !connected then (st, .error .NotConnected)
  else
    let probe := sendRequest st resps A2S_PLAYER [0xFF, 0xFF, 0xFF, 0xFF] S2C_CHALLENGE
    match probe.result with
    | .error e =>
      if e = A2sErr.ChallengeRequired then getPlayersAfterProbe probe
      else (probe.state, .error e)
    | .ok _ => getPlayersAfterProbe probe

/-- Continuation of GetRules after the challenge probe, as for players. -/
def getRulesAfterProbe (probe : NetResult) : ClientState × Except A2sErr (List Rule) :=
  if probe.state.challenge = -1 then (probe.state, .error .ChallengeNotReceived)
  else
    let req := sendRequest probe.state probe.remaining A2S_RULES
      (u32Bytes (int32ToU32 probe.state.challenge)) S2A_RULES
    match req.result with
    | .error e => (req.state, .error e)
    | .ok resp => (req.state, parseRulesResponse resp)

/-- The GetRules method, mirroring GetPlayers with the RULES types. -/
def GetRules (connected : Bool) (st : ClientState) (resps : List (List Nat)) :
    ClientState × Except A2sErr (List Rule) :=
  if !connected then (st, .error .NotConnected)
  else
    let probe := sendRequest st resps A2S_RULES [0xFF, 0xFF, 0xFF, 0xFF] S2C_CHALLENGE
    match probe.result with
    | .error e =>
      if e = A2sErr.ChallengeRequired then getRulesAfterProbe probe
      else (probe.state, .error e)
    | .ok _ => getRulesAfterProbe probe

/-- Recogniser for any error outcome of an Except value. -/
def isErrorOutcome {e a : Type} : Except e a → Bool
  | .error _ => true
  | .ok _ => false

/-! Helper lemmas about the byte-string reader. -/

theorem takeWhile_nonzero_append (s rest : List Nat) (h : ∀ x ∈ s, x ≠ 0) :
    (s ++ 0 :: rest).takeWhile (fun b => b != 0) = s := by
  induction s with
  | nil => simp [List.takeWhile]
  | cons a t ih =>
    have ha : (a != 0) = true := by simpa using h a (by simp)
    simp only [List.cons_append, List.takeWhile, ha]
    simp [ih (fun x hx => h x (by simp [hx]))]

theorem takeWhile_nonzero_all (s : List Nat) (h : ∀ x ∈ s, x ≠ 0) :
    s.takeWhile (fun b => b != 0) = s := by
  induction s with
  | nil => simp
  | cons a t ih =>
    have ha : (a != 0) = true := by simpa using h a (by simp)
    simp only [List.takeWhile, ha]
    simp [ih (fun x hx => h x (by simp [hx]))]

/-- Reading a zero-terminated string consumes it and its terminator. -/
theorem readString_term (s rest : List Nat) (h : ∀ x ∈ s, x ≠ 0) :
    readString (s ++ 0 :: rest) = (s, rest) := by
  unfold readString
  rw [takeWhile_nonzero_append s rest h]
  have h2 : s ++ 0 :: rest = (s ++ [0]) ++ rest := by simp
  rw [h2, List.drop_left' (by simp)]

/-- Reading an unterminated string consumes the whole buffer. -/
theorem readString_all (s : List Nat) (h : ∀ x ∈ s, x ≠ 0) :
    readString s = (s, []) := by
  unfold readString
  rw [takeWhile_nonzero_all s h]
  simp [List.drop_eq_nil_of_le]

/-- C2: a single packet whose first remaining byte is the challenge type
0x41 and which carries at least five remaining bytes stores the next four
bytes little-endian as the cached challenge and returns the
ChallengeRequired signal, never a successful payload, for every expected
type; with fewer than five remaining bytes it fails with ShortResponse. -/
theorem challenge_response_caches (st : ClientState) (rest : List Nat) (expect : Nat) :
    (4 ≤ rest.length →
      processSinglePacket st (S2C_CHALLENGE :: rest) expect
        = ({ challenge := toInt32 (readU32 rest) }, .error .ChallengeRequired)) ∧
    (rest.length < 4 →
      processSinglePacket st (S2C_CHALLENGE :: rest) expect = (st, .error .ShortResponse)) := by
  constructor
  · intro h
    simp [processSinglePacket, Nat.not_lt.mpr h]
  · intro h
    simp [processSinglePacket, h]

/-- Witness for C2 at a concrete five-byte and a concrete three-byte
challenge packet. -/
theorem challenge_response_caches_witness :
    (processSinglePacket newClient (S2C_CHALLENGE :: [1, 0, 0, 0]) S2A_PLAYER
      = ({ challenge := toInt32 (readU32 [1, 0, 0, 0]) }, .error .ChallengeRequired))
    ∧ (processSinglePacket newClient (S2C_CHALLENGE :: [1, 0]) S2A_PLAYER
      = (newClient, .error .ShortResponse)) :=
  ⟨(challenge_response_caches newClient [1, 0, 0, 0] S2A_PLAYER).1 (by decide),
   (challenge_response_caches newClient [1, 0] S2A_PLAYER).2 (by decide)⟩

/-- C3: a datagram whose four-byte header is the split flag 0xFFFFFFFE
fails with ShortResponse when fewer than nine bytes remain; otherwise the
payload start is six, extended to eight when more than eight bytes remain,
an out-of-range start fails with InvalidResponse, and otherwise
single-packet processing runs from that start. -/
theorem split_packet_dispatch (st : ClientState) (rest : List Nat) (expect : Nat) :
    (rest.length < 9 →
      processResponse st (254 :: 255 :: 255 :: 255 :: rest) expect
        = (st, .error .ShortResponse)) ∧
    (9 ≤ rest.length →
      processResponse st (254 :: 255 :: 255 :: 255 :: rest) expect
        = (let payloadStart := if 8 < rest.length then 8 else 6
           if rest.length ≤ payloadStart then (st, .error .InvalidResponse)
           else processSinglePacket st (rest.drop payloadStart) expect)) := by
  have hdr : readU32 (254 :: 255 :: 255 :: 255 :: rest) = SPLIT_FLAG := by
    norm_num [readU32, SPLIT_FLAG]
  have hne : (SPLIT_FLAG = Header) = False := by
    norm_num [SPLIT_FLAG, Header]
  constructor
  · intro h
    simp [processResponse, hdr, hne, processSplitPacket, h]
  · intro h
    simp [processResponse, hdr, hne, processSplitPacket, splitPayloadStart,
      Nat.not_lt.mpr h]

/-- Witness for C3 at a concrete empty split body and a concrete ten-byte
split body. -/
theorem split_packet_dispatch_witness :
    (processResponse newClient [254, 255, 255, 255] 0 = (newClient, .error .ShortResponse))
    ∧ (processResponse newClient (254 :: 255 :: 255 :: 255 :: [0, 0, 0, 0, 0, 0, 0, 0, 0, 7]) 0
      = (let payloadStart := if 8 < ([0, 0, 0, 0, 0, 0, 0, 0, 0, 7] : List Nat).length then 8 else 6
         if ([0, 0, 0, 0, 0, 0, 0, 0, 0, 7] : List Nat).length ≤ payloadStart
         then (newClient, .error .InvalidResponse)
         else processSinglePacket newClient (([0, 0, 0, 0, 0, 0, 0, 0, 0, 7] : List Nat).drop payloadStart) 0)) :=
  ⟨(split_packet_dispatch newClient [] 0).1 (by decide),
   (split_packet_dispatch newClient [0, 0, 0, 0, 0, 0, 0, 0, 0, 7] 0).2 (by decide)⟩

/-- C4: every outbound packet is the header 0xFFFFFFFF, the type byte, the
little-endian cached challenge before the payload for PLAYER and RULES
requests, the payload verbatim, and, for INFO requests only when the
cached challenge is not the sentinel, the challenge after the payload; an
INFO request with no known challenge carries no challenge bytes. -/
theorem buildPacket_layout (st : ClientState) (packetType : Nat) (payload : List Nat) :
    buildPacket st packetType payload =
      [255, 255, 255, 255] ++ [packetType]
        ++ (if packetType = A2S_PLAYER ∨ packetType = A2S_RULES
            then u32Bytes (int32ToU32 st.challenge) else [])
        ++ payload
        ++ (if packetType = A2S_INFO ∧ st.challenge ≠ -1
            then u32Bytes (int32ToU32 st.challenge) else []) := by
  simp [buildPacket, u32Bytes, Header]

/-- C8: truncated GoldSource payloads that pass the initial two-byte length
check on which the decoder performs an out-of-range read (modelled as the
none outcome): one failing at the unguarded protocol read, one failing at
the unguarded VAC read after the mod branch skip; a complete payload by
contrast decodes successfully. -/
theorem goldsource_unguarded_reads :
    parseGoldSourceInfo [0, 0, 0, 0, 0, 5, 16] = none
    ∧ parseGoldSourceInfo [0, 0, 0, 0, 0, 1, 2, 48, 100, 108, 1, 1] = none
    ∧ parseGoldSourceInfo [0, 0, 0, 0, 0, 1, 2, 48, 100, 108, 1, 0, 7]
        = some (.ok { ServerInfo.zero with
            Protocol := 48, Players := 1, MaxPlayers := 2, ServerType := 100
          , Environment := 108, Visibility := 1, VAC := 7 }) :=
  ⟨rfl, rfl, rfl⟩

theorem isChallengeRequired_error (e : A2sErr) :
    isChallengeRequired (.error e) = decide (e = A2sErr.ChallengeRequired) := by
  cases e <;> rfl

theorem isChallengeRequired_ok (p : List Nat) :
    isChallengeRequired (.ok p) = false := rfl

/-- C5: in a send and receive cycle, a successful attempt returns its
payload at once, an attempt failing with anything other than
ChallengeRequired returns that error at once, a ChallengeRequired attempt
is retried with one fewer attempt in the budget of three, and three
ChallengeRequired attempts in a row exhaust the budget and yield
TooManyRetries. -/
theorem sendRequest_retry_policy :
    (∀ st st2 d rest pt pl expect p,
      processResponse st d expect = (st2, .ok p) →
      ((sendRequest st (d :: rest) pt pl expect).result = .ok p
       ∧ (sendRequest st (d :: rest) pt pl expect).state = st2
       ∧ (sendRequest st (d :: rest) pt pl expect).remaining = rest)) ∧
    (∀ st st2 d rest pt pl expect e,
      processResponse st d expect = (st2, .error e) → e ≠ A2sErr.ChallengeRequired →
      ((sendRequest st (d :: rest) pt pl expect).result = .error e
       ∧ (sendRequest st (d :: rest) pt pl expect).state = st2
       ∧ (sendRequest st (d :: rest) pt pl expect).remaining = rest)) ∧
    (∀ st st2 d rest pt pl expect,
      processResponse st d expect = (st2, .error .ChallengeRequired) →
      ((sendRequest st (d :: rest) pt pl expect).result
          = (sendRequestLoop pt pl expect st2 rest 2).result
       ∧ (sendRequest st (d :: rest) pt pl expect).state
          = (sendRequestLoop pt pl expect st2 rest 2).state
       ∧ (sendRequest st (d :: rest) pt pl expect).remaining
          = (sendRequestLoop pt pl expect st2 rest 2).remaining)) ∧
    (∀ st st1 st2 st3 d1 d2 d3 rest pt pl expect,
      processResponse st d1 expect = (st1, .error .ChallengeRequired) →
      processResponse st1 d2 expect = (st2, .error .ChallengeRequired) →
      processResponse st2 d3 expect = (st3, .error .ChallengeRequired) →
      ((sendRequest st (d1 :: d2 :: d3 :: rest) pt pl expect).result
          = .error .TooManyRetries
       ∧ (sendRequest st (d1 :: d2 :: d3 :: rest) pt pl expect).state = st3
       ∧ (sendRequest st (d1 :: d2 :: d3 :: rest) pt pl expect).remaining = rest)) := by
  refine ⟨?_, ?_, ?_, ?_⟩
  · intro st st2 d rest pt pl expect p h
    simp [sendRequest, sendRequestLoop, h, isChallengeRequired_ok]
  · intro st st2 d rest pt pl expect e h hne
    simp [sendRequest, sendRequestLoop, h, isChallengeRequired_error, hne]
  · intro st st2 d rest pt pl expect h
    simp [sendRequest, sendRequestLoop, h, isChallengeRequired_error]
  · intro st st1 st2 st3 d1 d2 d3 rest pt pl expect h1 h2 h3
    simp [sendRequest, sendRequestLoop, h1, h2, h3, isChallengeRequired_error]

/-- Witness for C5: a direct player response is returned at once, a
protocol mismatch aborts at once, a challenge response leads to a retry,
and three challenge responses yield TooManyRetries. -/
theorem sendRequest_retry_policy_witness :
    ((sendRequest newClient [[255, 255, 255, 255, 68, 9]] A2S_PLAYER [] S2A_PLAYER).result
        = .ok [9]) ∧
    ((sendRequest newClient [[255, 255, 255, 255, 73]] A2S_PLAYER [] S2A_PLAYER).result
        = .error (.ProtocolMismatch 68 73)) ∧
    ((sendRequest newClient [[255, 255, 255, 255, 65, 1, 0, 0, 0]] A2S_PLAYER [] S2A_PLAYER).result
        = (sendRequestLoop A2S_PLAYER [] S2A_PLAYER { challenge := 1 } [] 2).result) ∧
    ((sendRequest newClient
        [[255, 255, 255, 255, 65, 1, 0, 0, 0], [255, 255, 255, 255, 65, 2, 0, 0, 0],
         [255, 255, 255, 255, 65, 3, 0, 0, 0]] A2S_PLAYER [] S2A_PLAYER).result
        = .error .TooManyRetries) :=
  ⟨(sendRequest_retry_policy.1 newClient newClient [255, 255, 255, 255, 68, 9] []
      A2S_PLAYER [] S2A_PLAYER [9] rfl).1,
   (sendRequest_retry_policy.2.1 newClient newClient [255, 255, 255, 255, 73] []
      A2S_PLAYER [] S2A_PLAYER (.ProtocolMismatch 68 73) rfl (by decide)).1,
   (sendRequest_retry_policy.2.2.1 newClient { challenge := 1 }
      [255, 255, 255, 255, 65, 1, 0, 0, 0] [] A2S_PLAYER [] S2A_PLAYER rfl).1,
   (sendRequest_retry_policy.2.2.2 newClient { challenge := 1 } { challenge := 2 }
      { challenge := 3 } [255, 255, 255, 255, 65, 1, 0, 0, 0]
      [255, 255, 255, 255, 65, 2, 0, 0, 0] [255, 255, 255, 255, 65, 3, 0, 0, 0] []
      A2S_PLAYER [] S2A_PLAYER rfl rfl rfl).1⟩

theorem processSinglePacket_state_change (st : ClientState) (data : List Nat) (expect : Nat) :
    (processSinglePacket st data expect).1 ≠ st →
    ((processSinglePacket st data expect).2 = .error .ChallengeRequired
     ∧ ∃ rest, data = S2C_CHALLENGE :: rest ∧ 4 ≤ rest.length
        ∧ (processSinglePacket st data expect).1.challenge = toInt32 (readU32 rest)) := by
  match data with
  | [] => intro h; exact absurd rfl h
  | t :: rest =>
    intro h
    by_cases ht : t = S2C_CHALLENGE
    · subst ht
      by_cases hl : rest.length < 4
      · exact absurd (by simp [processSinglePacket, hl]) h
      · refine ⟨by simp [processSinglePacket, hl], rest, rfl, Nat.not_lt.mp hl, ?_⟩
        simp [processSinglePacket, hl]
    · exfalso
      apply h
      by_cases he : t = expect
      · subst he
        simp [processSinglePacket, ht]
      · simp [processSinglePacket, ht, he]

theorem processSinglePacket_state_eq_or (st : ClientState) (data : List Nat) (expect : Nat) :
    (processSinglePacket st data expect).1 = st
    ∨ (processSinglePacket st data expect).2 = .error .ChallengeRequired := by
  by_cases h : (processSinglePacket st data expect).1 = st
  · exact .inl h
  · exact .inr (processSinglePacket_state_change st data expect h).1

theorem processSplitPacket_state_eq_or (st : ClientState) (data : List Nat) (expect : Nat) :
    (processSplitPacket st data expect).1 = st
    ∨ (processSplitPacket st data expect).2 = .error .ChallengeRequired := by
  unfold processSplitPacket
  by_cases h9 : data.length < 9
  · simp [h9]
  · by_cases hb : data.length ≤ splitPayloadStart data.length
    · simp [h9, hb]
    · simp only [h9, hb, if_false]
      exact processSinglePacket_state_eq_or st _ expect

theorem processResponse_state_change (st : ClientState) (data : List Nat) (expect : Nat) :
    (processResponse st data expect).1 ≠ st →
    (processResponse st data expect).2 = .error .ChallengeRequired := by
  have core : (processResponse st data expect).1 = st
      ∨ (processResponse st data expect).2 = .error .ChallengeRequired := by
    unfold processResponse
    by_cases h4 : data.length < 4
    · simp [h4]
    · by_cases hh : readU32 data = Header
      · simpa [h4, hh] using processSinglePacket_state_eq_or st (data.drop 4) expect
      · by_cases hs : readU32 data = SPLIT_FLAG
        · simpa [h4, hh, hs] using processSplitPacket_state_eq_or st (data.drop 4) expect
        · simp [h4, hh, hs]
  exact fun h => core.resolve_left h

/-- C9: the cached challenge starts at the sentinel minus one; the client
state is changed only by processing a challenge-typed response, in which
case the ChallengeRequired signal is raised and the new challenge is the
little-endian value carried by the packet; and the cached challenge is
embedded after the type byte of every PLAYER and RULES request packet. -/
theorem challenge_lifecycle :
    newClient.challenge = -1 ∧
    (∀ st data expect, (processSinglePacket st data expect).1 ≠ st →
      ((processSinglePacket st data expect).2 = .error .ChallengeRequired
       ∧ ∃ rest, data = S2C_CHALLENGE :: rest ∧ 4 ≤ rest.length
          ∧ (processSinglePacket st data expect).1.challenge = toInt32 (readU32 rest))) ∧
    (∀ st data expect, (processResponse st data expect).1 ≠ st →
      (processResponse st data expect).2 = .error .ChallengeRequired) ∧
    (∀ st payload, buildPacket st A2S_PLAYER payload
      = [255, 255, 255, 255, A2S_PLAYER] ++ u32Bytes (int32ToU32 st.challenge) ++ payload) ∧
    (∀ st payload, buildPacket st A2S_RULES payload
      = [255, 255, 255, 255, A2S_RULES] ++ u32Bytes (int32ToU32 st.challenge) ++ payload) := by
  refine ⟨rfl, processSinglePacket_state_change, processResponse_state_change, ?_, ?_⟩
  · intro st payload
    simp [buildPacket, u32Bytes, Header, A2S_PLAYER, A2S_RULES, A2S_INFO]
  · intro st payload
    simp [buildPacket, u32Bytes, Header, A2S_PLAYER, A2S_RULES, A2S_INFO]

/-- Witness for C9 at a concrete challenge packet that changes the state
of a fresh client. -/
theorem challenge_lifecycle_witness :
    ((processSinglePacket newClient [65, 1, 0, 0, 0] 68).2 = .error .ChallengeRequired
     ∧ ∃ rest, ([65, 1, 0, 0, 0] : List Nat) = S2C_CHALLENGE :: rest ∧ 4 ≤ rest.length
        ∧ (processSinglePacket newClient [65, 1, 0, 0, 0] 68).1.challenge
            = toInt32 (readU32 rest)) ∧
    (processResponse newClient [255, 255, 255, 255, 65, 1, 0, 0, 0] 68).2
        = .error .ChallengeRequired :=
  ⟨challenge_lifecycle.2.1 newClient [65, 1, 0, 0, 0] 68 (by decide),
   challenge_lifecycle.2.2.1 newClient [255, 255, 255, 255, 65, 1, 0, 0, 0] 68 (by decide)⟩

theorem parsePlayersLoop_spec (r : Nat) :
    ∀ data ps rem2, parsePlayersLoop data r = .ok (ps, rem2) →
      ps.length ≤ r ∧ (ps.length < r → rem2 = []) := by
  induction r with
  | zero =>
    intro data ps rem2 h
    simp only [parsePlayersLoop, Except.ok.injEq, Prod.mk.injEq] at h
    obtain ⟨rfl, rfl⟩ := h
    exact ⟨Nat.le_refl 0, fun hlt => absurd hlt (Nat.lt_irrefl 0)⟩
  | succ r ih =>
    intro data ps rem2 h
    cases data with
    | nil =>
      simp only [parsePlayersLoop, Except.ok.injEq, Prod.mk.injEq] at h
      obtain ⟨rfl, rfl⟩ := h
      exact ⟨Nat.zero_le _, fun _ => rfl⟩
    | cons index rest1 =>
      simp only [parsePlayersLoop] at h
      split at h
      · exact absurd h (by simp)
      · split at h
        · exact absurd h (by simp)
        · split at h
          · rename_i pr heq
            simp only [Except.ok.injEq, Prod.mk.injEq] at h
            obtain ⟨rfl, rfl⟩ := h
            have hrec := ih _ pr.1 pr.2 heq
            refine ⟨Nat.succ_le_succ hrec.1, fun hlt => hrec.2 ?_⟩
            simpa using Nat.lt_of_succ_lt_succ hlt
          · exact absurd h (by simp)

theorem parseRulesLoop_spec (r : Nat) :
    ∀ data, (parseRulesLoop data r).1.length ≤ r
      ∧ ((parseRulesLoop data r).1.length < r → (parseRulesLoop data r).2 = []) := by
  induction r with
  | zero =>
    intro data
    simp [parseRulesLoop]
  | succ r ih =>
    intro data
    cases data with
    | nil => simp [parseRulesLoop]
    | cons b rest0 =>
      simp only [parseRulesLoop, List.length_cons]
      constructor
      · exact Nat.succ_le_succ (ih _).1
      · intro hlt
        exact (ih _).2 (Nat.lt_of_succ_lt_succ hlt)

/-- The loop consumes nothing on an exhausted buffer, for any budget. -/
theorem parseRulesLoop_nil (r : Nat) : parseRulesLoop [] r = ([], []) := by
  cases r <;> rfl

/-- C7: player and rule list parsing stops at the advertised count or at
buffer exhaustion, whichever comes first, and never produces more entries
than the count: the loop invariants, the response-level bounds with the
count taken from the wire, and the wire-order example of the
specification decoding two rules in received order. -/
theorem list_parsers_bounded :
    (∀ data ps rem2 r, parsePlayersLoop data r = .ok (ps, rem2) →
      (ps.length ≤ r ∧ (ps.length < r → rem2 = []))) ∧
    (∀ data r, (parseRulesLoop data r).1.length ≤ r
      ∧ ((parseRulesLoop data r).1.length < r → (parseRulesLoop data r).2 = [])) ∧
    (∀ data ps, parsePlayersResponse data = .ok ps → ps.length ≤ data.getD 0 0) ∧
    (∀ data rs, parseRulesResponse data = .ok rs → rs.length ≤ readU16 data) ∧
    (parseRulesResponse [2, 0, 109, 111, 100, 101, 0, 99, 116, 102, 0, 102, 102, 97, 0, 48, 0]
      = .ok [{ Name := [109, 111, 100, 101], Value := [99, 116, 102] },
             { Name := [102, 102, 97], Value := [48] }]) := by
  refine ⟨fun data ps rem2 r h => parsePlayersLoop_spec r data ps rem2 h,
    fun data r => parseRulesLoop_spec r data, ?_, ?_, rfl⟩
  · intro data ps h
    unfold parsePlayersResponse at h
    split at h
    · exact absurd h (by simp)
    · split at h
      · rename_i pr heq
        simp only [Except.ok.injEq] at h
        subst h
        exact (parsePlayersLoop_spec _ _ pr.1 pr.2 heq).1
      · exact absurd h (by simp)
  · intro data rs h
    unfold parseRulesResponse at h
    split at h
    · exact absurd h (by simp)
    · simp only [Except.ok.injEq] at h
      subst h
      exact (parseRulesLoop_spec _ _).1

/-- Witness for C7 at a concrete truncated player payload announcing two
entries but carrying one, and a concrete truncated rules payload. -/
theorem list_parsers_bounded_witness :
    (([({ Index := 7, Name := [65], Score := 1, DurationBits := 2, Deaths := 0
        , Money := 0 } : PlayerInfo)].length ≤ 2
      ∧ ([({ Index := 7, Name := [65], Score := 1, DurationBits := 2, Deaths := 0
           , Money := 0 } : PlayerInfo)].length < 2 → ([] : List Nat) = [])) ∧
    ([({ Index := 7, Name := [65], Score := 1, DurationBits := 2, Deaths := 0
       , Money := 0 } : PlayerInfo)].length
      ≤ ([2, 7, 65, 0, 1, 0, 0, 0, 2, 0, 0, 0] : List Nat).getD 0 0) ∧
    ([({ Name := [109], Value := [] } : Rule)].length ≤ readU16 [2, 0, 109])) :=
  ⟨list_parsers_bounded.1 [7, 65, 0, 1, 0, 0, 0, 2, 0, 0, 0]
      [{ Index := 7, Name := [65], Score := 1, DurationBits := 2, Deaths := 0, Money := 0 }]
      [] 2 rfl,
   list_parsers_bounded.2.2.1 [2, 7, 65, 0, 1, 0, 0, 0, 2, 0, 0, 0]
      [{ Index := 7, Name := [65], Score := 1, DurationBits := 2, Deaths := 0, Money := 0 }]
      rfl,
   list_parsers_bounded.2.2.2.1 [2, 0, 109] [{ Name := [109], Value := [] }] rfl⟩

/-- C10: when the rules buffer still has bytes at the start of an entry
but runs out inside it, the entry is still appended with its missing
pieces empty: an unterminated name yields a final rule with that name and
an empty value, and a name whose terminator ends the buffer yields a
final rule with an empty value; in both cases the early stop emits the
trailing partial rule rather than dropping it. -/
theorem rules_partial_final_entry :
    (∀ n1 n2 s, 0 < n1 + 256 * n2 → s ≠ [] → (∀ x ∈ s, x ≠ 0) →
      parseRulesResponse (n1 :: n2 :: s) = .ok [{ Name := s, Value := [] }]) ∧
    (∀ n1 n2 s, 0 < n1 + 256 * n2 → (∀ x ∈ s, x ≠ 0) →
      parseRulesResponse (n1 :: n2 :: (s ++ [0])) = .ok [{ Name := s, Value := [] }]) := by
  constructor
  · intro n1 n2 s hN hs hnz
    unfold parseRulesResponse
    rw [if_neg (by simp)]
    have hr16 : readU16 (n1 :: n2 :: s) = n1 + 256 * n2 := by simp [readU16]
    have hdrop : (n1 :: n2 :: s).drop 2 = s := rfl
    rw [hr16, hdrop]
    rcases Nat.exists_eq_succ_of_ne_zero (Nat.pos_iff_ne_zero.mp hN) with ⟨k, hk⟩
    rw [hk]
    cases s with
    | nil => exact absurd rfl hs
    | cons b rest0 =>
      simp only [parseRulesLoop]
      rw [readString_all (b :: rest0) hnz]
      simp [readString, parseRulesLoop_nil]
  · intro n1 n2 s hN hnz
    unfold parseRulesResponse
    rw [if_neg (by simp)]
    have hr16 : readU16 (n1 :: n2 :: (s ++ [0])) = n1 + 256 * n2 := by simp [readU16]
    have hdrop : (n1 :: n2 :: (s ++ [0])).drop 2 = s ++ [0] := rfl
    rw [hr16, hdrop]
    rcases Nat.exists_eq_succ_of_ne_zero (Nat.pos_iff_ne_zero.mp hN) with ⟨k, hk⟩
    rw [hk]
    have hterm : readString (s ++ [0]) = (s, []) := readString_term s [] hnz
    cases hsp : s ++ [0] with
    | nil => simp at hsp
    | cons b tl =>
      simp only [parseRulesLoop]
      rw [← hsp, hterm]
      simp [readString, parseRulesLoop_nil]

/-- Witness for C10 at a one-rule buffer ending inside the name and a
two-rule buffer ending right after the first name terminator. -/
theorem rules_partial_final_entry_witness :
    parseRulesResponse [2, 0, 109] = .ok [{ Name := [109], Value := [] }] ∧
    parseRulesResponse [1, 0, 109, 0] = .ok [{ Name := [109], Value := [] }] :=
  ⟨rules_partial_final_entry.1 2 0 [109] (by decide) (by decide) (by decide),
   rules_partial_final_entry.2 1 0 [109] (by decide) (by decide)⟩


/-- Encoding of a Source INFO payload with explicit fields: the protocol
byte, four zero-terminated strings, the two application-identifier bytes,
the three count bytes, the four discriminator bytes, the zero-terminated
version string, the Extra Data Flags byte and an arbitrary tail. -/
def srcInfoBytes (pb : Nat) (name mapn folder game : List Nat)
    (a1 a2 p m b st en vi va : Nat) (ver : List Nat) (edf : Nat) (tail : List Nat) :
    List Nat :=
  pb :: (name ++ 0 :: (mapn ++ 0 :: (folder ++ 0 :: (game ++ 0 ::
    (a1 :: a2 :: p :: m :: b :: st :: en :: vi :: va ::
      (ver ++ 0 :: (edf :: tail)))))))

/-- Projection of the decoded game port out of a parse outcome. -/
def gamePortOf : Except A2sErr ServerInfo → Option Nat
  | .ok info => some info.GamePort
  | .error _ => none

theorem edfSteamID_GamePort (acc : ServerInfo × List Nat) :
    (edfSteamID acc).1.GamePort = acc.1.GamePort := by
  obtain ⟨info, rem⟩ := acc
  simp only [edfSteamID]
  split <;> rfl

theorem edfSourceTV_GamePort (acc : ServerInfo × List Nat) :
    (edfSourceTV acc).1.GamePort = acc.1.GamePort := by
  obtain ⟨info, rem⟩ := acc
  simp only [edfSourceTV]
  split <;> rfl

theorem edfKeywords_GamePort (acc : ServerInfo × List Nat) :
    (edfKeywords acc).1.GamePort = acc.1.GamePort := by
  obtain ⟨info, rem⟩ := acc
  simp only [edfKeywords]
  split <;> rfl

theorem edfGameID_GamePort (acc : ServerInfo × List Nat) :
    (edfGameID acc).1.GamePort = acc.1.GamePort := by
  obtain ⟨info, rem⟩ := acc
  simp only [edfGameID]
  split <;> rfl

theorem parseEDF_GamePort (info : ServerInfo) (rem : List Nat) :
    (parseEDF info rem).GamePort =
      (match rem with
       | [] => info.GamePort
       | e :: rest =>
         if e &&& 128 ≠ 0 ∧ 2 ≤ rest.length then readU16 rest else info.GamePort) := by
  cases rem with
  | nil => rfl
  | cons e rest =>
    simp only [parseEDF]
    rw [edfGameID_GamePort, edfKeywords_GamePort, edfSourceTV_GamePort, edfSteamID_GamePort]
    simp only [edfGamePort]
    split <;> rfl

/-- C6: on every well-formed Source INFO payload, whatever the Extra Data
Flags byte and whatever bytes follow it, the parse succeeds (a truncated
optional tail raises no error, each flag-gated read being guarded by its
own bit test and length check), the decoded game port equals the two
little-endian bytes after the Extra Data Flags byte exactly when bit 0x80
is set and at least two bytes remain there, and the port stays zero
otherwise. -/
theorem source_info_edf_gameport (pb : Nat) (name mapn folder game : List Nat)
    (a1 a2 p m b st en vi va : Nat) (ver : List Nat) (edf : Nat) (tail : List Nat)
    (hn : ∀ x ∈ name, x ≠ 0) (hm : ∀ x ∈ mapn, x ≠ 0) (hf : ∀ x ∈ folder, x ≠ 0)
    (hg : ∀ x ∈ game, x ≠ 0) (hv : ∀ x ∈ ver, x ≠ 0)
    (hlen : 20 ≤ (srcInfoBytes pb name mapn folder game a1 a2 p m b st en vi va ver edf tail).length) :
    gamePortOf (parseSourceInfo (srcInfoBytes pb name mapn folder game a1 a2 p m b st en vi va ver edf tail))
      = some (if edf &&& 128 ≠ 0 ∧ 2 ≤ tail.length then readU16 tail else 0) := by
  have e1 := readString_term name (mapn ++ 0 :: (folder ++ 0 :: (game ++ 0 ::
    (a1 :: a2 :: p :: m :: b :: st :: en :: vi :: va :: (ver ++ 0 :: (edf :: tail)))))) hn
  have e2 := readString_term mapn (folder ++ 0 :: (game ++ 0 ::
    (a1 :: a2 :: p :: m :: b :: st :: en :: vi :: va :: (ver ++ 0 :: (edf :: tail))))) hm
  have e3 := readString_term folder (game ++ 0 ::
    (a1 :: a2 :: p :: m :: b :: st :: en :: vi :: va :: (ver ++ 0 :: (edf :: tail)))) hf
  have e4 := readString_term game
    (a1 :: a2 :: p :: m :: b :: st :: en :: vi :: va :: (ver ++ 0 :: (edf :: tail))) hg
  have e5 := readString_term ver (edf :: tail) hv
  unfold parseSourceInfo
  rw [if_neg (Nat.not_lt.mpr hlen)]
  simp only [srcInfoBytes, List.drop_succ_cons, List.drop_zero]
  rw [e1, e2, e3, e4]
  dsimp only
  simp only [List.length_cons, List.drop_succ_cons, List.drop_zero]
  have hc1 : 2 ≤ (ver ++ 0 :: edf :: tail).length + 1 + 1 + 1 + 1 + 1 + 1 + 1 + 1 + 1 := by
    omega
  rw [if_pos hc1]
  dsimp only
  simp only [List.drop_succ_cons, List.drop_zero, List.length_cons]
  rw [if_neg (by omega), if_neg (by omega), e5]
  simp only [gamePortOf, parseEDF_GamePort]
  simp [ServerInfo.zero]

theorem processSinglePacket_challenge_never_ok (st : ClientState) (d p : List Nat) :
    (processSinglePacket st d S2C_CHALLENGE).2 ≠ .ok p := by
  cases d with
  | nil => simp [processSinglePacket]
  | cons t rest =>
    by_cases ht : t = S2C_CHALLENGE
    · subst ht
      by_cases hl : rest.length < 4 <;> simp [processSinglePacket, hl]
    · simp [processSinglePacket, ht]

theorem processSplitPacket_challenge_never_ok (st : ClientState) (d p : List Nat) :
    (processSplitPacket st d S2C_CHALLENGE).2 ≠ .ok p := by
  unfold processSplitPacket
  by_cases h9 : d.length < 9
  · simp [h9]
  · by_cases hb : d.length ≤ splitPayloadStart d.length
    · simp [h9, hb]
    · simp only [h9, hb, if_false]
      exact processSinglePacket_challenge_never_ok st _ p

theorem processResponse_challenge_never_ok (st : ClientState) (d p : List Nat) :
    (processResponse st d S2C_CHALLENGE).2 ≠ .ok p := by
  unfold processResponse
  by_cases h4 : d.length < 4
  · simp [h4]
  · by_cases hh : readU32 d = Header
    · simpa [h4, hh] using processSinglePacket_challenge_never_ok st (d.drop 4) p
    · by_cases hs : readU32 d = SPLIT_FLAG
      · simpa [h4, hh, hs] using processSplitPacket_challenge_never_ok st (d.drop 4) p
      · simp [h4, hh, hs]

theorem sendRequestLoop_never_challenge (pt : Nat) (pl : List Nat) (expect : Nat) :
    ∀ fuel st resps,
      (sendRequestLoop pt pl expect st resps fuel).result ≠ .error .ChallengeRequired := by
  intro fuel
  induction fuel with
  | zero => intro st resps; simp [sendRequestLoop]
  | succ fuel ih =>
    intro st resps
    cases resps with
    | nil => simp [sendRequestLoop]
    | cons d rest =>
      simp only [sendRequestLoop]
      by_cases hc : isChallengeRequired (processResponse st d expect).2
      · simp only [hc, if_true]
        simpa using ih _ rest
      · simp only [hc, if_false]
        intro h
        apply hc
        rw [show (processResponse st d expect).2 = Except.error A2sErr.ChallengeRequired from h]
        rfl

theorem sendRequestLoop_challenge_never_ok (pt : Nat) (pl : List Nat) :
    ∀ fuel st resps p,
      (sendRequestLoop pt pl S2C_CHALLENGE st resps fuel).result ≠ .ok p := by
  intro fuel
  induction fuel with
  | zero => intro st resps p; simp [sendRequestLoop]
  | succ fuel ih =>
    intro st resps p
    cases resps with
    | nil => simp [sendRequestLoop]
    | cons d rest =>
      simp only [sendRequestLoop]
      by_cases hc : isChallengeRequired (processResponse st d S2C_CHALLENGE).2
      · simp only [hc, if_true]
        simpa using ih _ rest p
      · simp only [hc, if_false]
        intro h
        exact processResponse_challenge_never_ok st d p h

/-- C1 (code defect): the challenge probe of GetPlayers and GetRules is
sent through the retry wrapper, which consumes every ChallengeRequired
signal and turns three of them into TooManyRetries, and a probe expecting
the challenge type can never succeed because the challenge branch of
single-packet processing shadows the expected-type comparison; hence the
probe result is never ChallengeRequired and never a success, both calls
abort at the probe for every connected client and every inbound datagram
stream, and the challenge-not-received path is unreachable.  The last two
conjuncts evaluate the calls on the failing input: a server that answers
each probe attempt with a well-formed challenge response. -/
theorem players_rules_probe_defeated :
    (∀ st resps, isErrorOutcome (GetPlayers true st resps).2 = true) ∧
    (∀ st resps, isErrorOutcome (GetRules true st resps).2 = true) ∧
    ((GetPlayers true newClient
        [[255, 255, 255, 255, 65, 1, 0, 0, 0], [255, 255, 255, 255, 65, 1, 0, 0, 0],
         [255, 255, 255, 255, 65, 1, 0, 0, 0]]).2 = .error .TooManyRetries) ∧
    ((GetRules true newClient
        [[255, 255, 255, 255, 65, 1, 0, 0, 0], [255, 255, 255, 255, 65, 1, 0, 0, 0],
         [255, 255, 255, 255, 65, 1, 0, 0, 0]]).2 = .error .TooManyRetries) := by
  refine ⟨?_, ?_, rfl, rfl⟩
  · intro st resps
    cases hr : (sendRequest st resps A2S_PLAYER [255, 255, 255, 255] S2C_CHALLENGE).result with
    | ok p => exact absurd hr (sendRequestLoop_challenge_never_ok A2S_PLAYER [255, 255, 255, 255] 3 st resps p)
    | error e =>
      by_cases he : e = A2sErr.ChallengeRequired
      · subst he
        exact absurd hr (sendRequestLoop_never_challenge A2S_PLAYER [255, 255, 255, 255] S2C_CHALLENGE 3 st resps)
      · simp [GetPlayers, hr, he, isErrorOutcome]
  · intro st resps
    cases hr : (sendRequest st resps A2S_RULES [255, 255, 255, 255] S2C_CHALLENGE).result with
    | ok p => exact absurd hr (sendRequestLoop_challenge_never_ok A2S_RULES [255, 255, 255, 255] 3 st resps p)
    | error e =>
      by_cases he : e = A2sErr.ChallengeRequired
      · subst he
        exact absurd hr (sendRequestLoop_never_challenge A2S_RULES [255, 255, 255, 255] S2C_CHALLENGE 3 st resps)
      · simp [GetRules, hr, he, isErrorOutcome]

/-- Witness for C6 at a concrete payload with Extra Data Flags 0x80 and a
two-byte port tail. -/
theorem source_info_edf_gameport_witness :
    gamePortOf (parseSourceInfo
        (srcInfoBytes 73 [65] [66] [67] [68] 220 0 5 16 0 100 108 0 1 [118, 49] 128 [57, 48]))
      = some (if 128 &&& 128 ≠ 0 ∧ 2 ≤ ([57, 48] : List Nat).length
              then readU16 [57, 48] else 0) :=
  source_info_edf_gameport 73 [65] [66] [67] [68] 220 0 5 16 0 100 108 0 1 [118, 49] 128 [57, 48]
    (by decide) (by decide) (by decide) (by decide) (by decide) (by decide)

end A2s
